import Mathlib

/-!
# Livepeer reward watchdog

A shallow embedding of `main.go`: the RPC endpoint selection (`connect`), the
Telegram notifier (`sendTelegramAlert`) and the monitoring loop of `main`
(lines 132-176), followed by the properties proved about them.

Conventions of the embedding.

* Side effects are recorded, in program order, as a list of `Effect`s (log lines
  and HTTP posts); the answers of the outside world (network, clock, event
  channels) are explicit inputs.
* A `time.Time` is the number of nanoseconds since Go's zero instant, so that
  `IsZero` is a comparison with `0`; wall clock and monotonic clock are
  identified.  A `time.Duration` is an integer number of nanoseconds.
* `uint64` values are natural numbers, reduced modulo `2 ^ 64` where the program
  converts into that type.
* The text renderers of the libraries (`Address.Hex`, `Hash.Hex`,
  `Duration.String`) are parameters, collected in `Lib`.
-/

namespace RewardWatchdog

/-! ## Time -/

/-- Nanoseconds of a Go `time.Duration`. -/
abbrev Duration := Int

/-- Nanoseconds since the zero instant of Go's `time.Time`. -/
abbrev Time := Int

/-- Largest `time.Duration`, `1<<63 - 1`. -/
def maxDuration : Duration := 2 ^ 63 - 1

/-- Smallest `time.Duration`, `-1 << 63`. -/
def minDuration : Duration := -(2 ^ 63)

/-- One minute, `time.Minute`. -/
def Minute : Duration := 60 * 1000000000

/-- One hour, `time.Hour`. -/
def Hour : Duration := 60 * Minute

/-- Method `Time.IsZero`: the instant is the zero instant. -/
def IsZero (t : Time) : Bool := t == 0

/-- Function `time.Since(t)` evaluated while the clock reads `now`: the difference
`now - t`, saturated to the range of `time.Duration`. -/
def Since (now t : Time) : Duration :=
  let d := now - t
  if d > maxDuration then maxDuration
  else if d < minDuration then minDuration
  else d

/-- Function `time.NewTicker(d)` of the Go library: the duration must be greater
than zero, otherwise it panics with the message below. -/
def NewTicker (d : Duration) : Except String Unit :=
  if d ≤ 0 then Except.error "non-positive interval for NewTicker" else Except.ok ()

/-! ## Chain data -/

/-- A 32-byte `common.Hash`. -/
structure Hash where
  bytes : List (Fin 256)
  size : bytes.length = 32

/-- A 20-byte `common.Address`. -/
structure Address where
  bytes : List (Fin 256)
  size : bytes.length = 20

/-- The unsigned integer a byte string denotes when read big-endian, as
`big.Int.SetBytes`. -/
def bigEndian (bs : List (Fin 256)) : Nat :=
  bs.foldl (fun acc b => acc * 256 + b.val) 0

/-- Method `Hash.Big`: the 32 bytes read as a big-endian unsigned integer. -/
def Hash.Big (h : Hash) : Nat := bigEndian h.bytes

/-- Method `big.Int.Uint64` on a non-negative integer: its low 64 bits. -/
def Uint64 (x : Nat) : Nat := x % 2 ^ 64

/-- The fields of `types.Log` that `main` reads. -/
structure Log where
  BlockNumber : Nat
  TxHash : Hash
  Topics : List Hash

/-- Text renderers of the libraries used in the messages. -/
structure Lib where
  addressHex : Address → String
  hashHex : Hash → String
  durationString : Duration → String

/-! ## Notifier -/

/-- The request `sendTelegramAlert` posts: target URL and the two JSON fields. -/
structure Request where
  url : String
  chat_id : String
  text : String
deriving DecidableEq, Repr

/-- Observable actions of the monitoring loop. -/
inductive Effect
  | log (line : String)
  | post (req : Request)
deriving DecidableEq, Repr

/-- Answer of the network to a post: `none` for success, `some err` for the error
returned by `http.Post`. -/
abbrev Net := Request → Option String

/-- Function `sendTelegramAlert`: posts the message and returns the error of the
post, if any. -/
def sendTelegramAlert (net : Net) (botToken chatID message : String) :
    List Effect × Option String :=
  let url := "https://api.telegram.org/bot" ++ botToken ++ "/sendMessage"
  let req : Request := { url := url, chat_id := chatID, text := message }
  match net req with
  | some err => ([Effect.post req], some err)
  | none => ([Effect.post req], none)

/-! ## Monitoring loop -/

/-- Settings of a run: the tracked orchestrator, the Telegram credentials and
the two duration flags. -/
structure Config where
  orch : Address
  botToken : String
  chatID : String
  delayFlag : Duration
  notifyIntervalFlag : Duration

/-- The variables `currentRound`, `roundStart` and `rewardCalled` of `main`. -/
structure State where
  currentRound : Nat
  roundStart : Time
  rewardCalled : Bool
deriving DecidableEq, Repr

/-- Values of the three variables when the loop is entered. -/
def State.init : State :=
  { currentRound := 0, roundStart := 0, rewardCalled := false }

/-- The ready case of one `select`, with what it receives and, where the case
reads the clock (`time.Now` for a NewRound log, `time.Since` for a tick), the
reading.  A subscription error is given by its text as `%v` prints it. -/
inductive Input
  | rewardErr (err : String)
  | roundErr (err : String)
  | reward (vLog : Log)
  | round (vLog : Log) (now : Time)
  | tick (now : Time)

/-- Result of one iteration: the variables, the effects in order, and whether the
iteration executed `return`. -/
structure Outcome where
  state : State
  effects : List Effect
  returned : Bool
deriving DecidableEq, Repr

/-- Text of the alert sent for a Reward log. -/
def rewardMsg (lib : Lib) (cfg : Config) (vLog : Log) : String :=
  "✅ Reward called for " ++ lib.addressHex cfg.orch ++ " at block " ++
    toString vLog.BlockNumber ++ ", tx " ++ lib.hashHex vLog.TxHash

/-- Text of the alert sent when the reward call is overdue. -/
def delayMsg (lib : Lib) (cfg : Config) (currentRound : Nat) : String :=
  "❌ No reward called for " ++ lib.addressHex cfg.orch ++ " in round " ++
    toString currentRound ++ " after " ++ lib.durationString cfg.delayFlag

/-- Round number read from a NewRound log: `Topics[1].Big().Uint64()` when the log
has more than one topic, else the zero value of `roundNum`. -/
def roundNum (vLog : Log) : Nat :=
  if h : vLog.Topics.length > 1 then Uint64 (vLog.Topics.get ⟨1, h⟩).Big else 0

/-- One iteration of the `for`/`select` of `main`, on the case `inp`. -/
def step (lib : Lib) (cfg : Config) (net : Net) (s : State) : Input → Outcome
  | Input.rewardErr err =>
    let logged := [Effect.log ("Reward subscription error: " ++ err)]
    let sent := (sendTelegramAlert net cfg.botToken cfg.chatID
      ("⚠️ Reward subscription error: " ++ err)).1
    { state := s, effects := logged ++ sent, returned := true }
  | Input.roundErr err =>
    let logged := [Effect.log ("NewRound subscription error: " ++ err)]
    let sent := (sendTelegramAlert net cfg.botToken cfg.chatID
      ("⚠️ NewRound subscription error: " ++ err)).1
    { state := s, effects := logged ++ sent, returned := true }
  | Input.reward vLog =>
    let s1 := { s with rewardCalled := true }
    let alertMsg := rewardMsg lib cfg vLog
    let logged := [Effect.log alertMsg]
    let sent := (sendTelegramAlert net cfg.botToken cfg.chatID alertMsg).1
    { state := s1, effects := logged ++ sent, returned := false }
  | Input.round vLog now =>
    let s1 : State :=
      { currentRound := roundNum vLog, roundStart := now, rewardCalled := false }
    { state := s1
      effects := [Effect.log ("New round " ++ toString s1.currentRound ++ " started")]
      returned := false }
  | Input.tick now =>
    if !s.rewardCalled && !IsZero s.roundStart then
      let elapsed := Since now s.roundStart
      if elapsed ≥ cfg.delayFlag then
        let alertMsg := delayMsg lib cfg s.currentRound
        let logged := [Effect.log alertMsg]
        let sent := (sendTelegramAlert net cfg.botToken cfg.chatID alertMsg).1
        { state := s, effects := logged ++ sent, returned := false }
      else { state := s, effects := [], returned := false }
    else { state := s, effects := [], returned := false }

/-- What the loop has done on a finite sequence of arrivals: the variables at the
end, the effects of each handled arrival (one entry per iteration, in order) and
whether the loop has returned. -/
structure Run where
  state : State
  trace : List (List Effect)
  returned : Bool
deriving DecidableEq, Repr

/-- The `for` loop of `main` on the arrivals `ins`, each with the answer the
network gives during its iteration.  Arrivals after a `return` are not handled. -/
def loop (lib : Lib) (cfg : Config) : State → List (Input × Net) → Run
  | s, [] => { state := s, trace := [], returned := false }
  | s, (inp, net) :: rest =>
    let o := step lib cfg net s inp
    if o.returned then { state := o.state, trace := [o.effects], returned := true }
    else
      let r := loop lib cfg o.state rest
      { state := r.state, trace := o.effects :: r.trace, returned := r.returned }

/-- Result of the monitoring part of `main`: a panic before the loop is entered,
or the run of the loop. -/
inductive MainResult
  | panicked (logged : List Effect) (msg : String)
  | ran (logged : List Effect) (r : Run)
deriving DecidableEq, Repr

/-- Lines 132-176 of `main`, after the start-up steps (flags, `connect`,
credentials, ABIs, subscriptions) have succeeded: initialise the variables, log,
create the ticker, run the loop. -/
def main (lib : Lib) (cfg : Config) (ins : List (Input × Net)) : MainResult :=
  let logged := [Effect.log "Monitoring started..."]
  match NewTicker cfg.notifyIntervalFlag with
  | Except.error msg => MainResult.panicked logged msg
  | Except.ok _ => MainResult.ran logged (loop lib cfg State.init ins)

/-! ## Endpoint selection -/

/-- Handle of an opened `ethclient.Client`. -/
structure Client where
  id : Nat
deriving DecidableEq, Repr

/-- How the network answers the attempt on one candidate: `DialContext` fails, or
it opens a client whose `BlockNumber` probe fails, or both succeed. -/
inductive Endpoint
  | unreachable
  | dead (c : Client)
  | live (c : Client)
deriving DecidableEq, Repr

/-- Observable actions of `connect`. -/
inductive DialEffect
  | dial (url : String)
  | probe (c : Client)
  | close (c : Client)
deriving DecidableEq, Repr

/-- The three results of `connect` together with its actions in order. -/
structure ConnectResult where
  client : Option Client
  url : String
  err : Option String
  actions : List DialEffect
deriving DecidableEq, Repr

/-- Function `connect` on the candidate URLs, each paired with the answer of the
network to the attempt on it. -/
def connect : List (String × Endpoint) → ConnectResult
  | [] => { client := none, url := "", err := some "all RPCs failed", actions := [] }
  | (url, Endpoint.unreachable) :: rest =>
    let r := connect rest
    { r with actions := DialEffect.dial url :: r.actions }
  | (url, Endpoint.dead c) :: rest =>
    let r := connect rest
    { r with actions :=
        DialEffect.dial url :: DialEffect.probe c :: DialEffect.close c :: r.actions }
  | (url, Endpoint.live c) :: _ =>
    { client := some c, url := url, err := none
      actions := [DialEffect.dial url, DialEffect.probe c] }

/-- Open and probe both succeed on the endpoint. -/
def Endpoint.isLive : Endpoint → Bool
  | Endpoint.live _ => true
  | _ => false

/-- The client of an endpoint that opens and then fails its probe. -/
def Endpoint.deadClient : Endpoint → Option Client
  | Endpoint.dead c => some c
  | _ => none

/-- The URLs dialled, in order. -/
def dialed : List DialEffect → List String
  | [] => []
  | DialEffect.dial url :: rest => url :: dialed rest
  | _ :: rest => dialed rest

/-- The clients closed, in order. -/
def closed : List DialEffect → List Client
  | [] => []
  | DialEffect.close c :: rest => c :: closed rest
  | _ :: rest => closed rest

/-! ## Kinds of input -/

/-- The input is a NewRound log. -/
def Input.isRound : Input → Bool
  | Input.round _ _ => true
  | _ => false

/-- The input is a Reward log. -/
def Input.isReward : Input → Bool
  | Input.reward _ => true
  | _ => false

/-- The input is a tick of the ticker. -/
def Input.isTick : Input → Bool
  | Input.tick _ => true
  | _ => false

/-- The input is an error of one of the two subscriptions. -/
def Input.isErr : Input → Bool
  | Input.rewardErr _ => true
  | Input.roundErr _ => true
  | _ => false

/-! ## Reading the effects -/

/-- The posts among the effects, in order: the alerts handed to Telegram. -/
def posts : List Effect → List Request
  | [] => []
  | Effect.post req :: rest => req :: posts rest
  | Effect.log _ :: rest => posts rest

/-- The log lines among the effects, in order. -/
def logs : List Effect → List String
  | [] => []
  | Effect.log line :: rest => line :: logs rest
  | Effect.post _ :: rest => logs rest

/-- The request that carries `message` under the credentials of `cfg`. -/
def alertRequest (cfg : Config) (message : String) : Request :=
  { url := "https://api.telegram.org/bot" ++ cfg.botToken ++ "/sendMessage"
    chat_id := cfg.chatID
    text := message }

/-! ## Sample data -/

/-- Two lower-case hexadecimal digits of a byte. -/
def hexByte (b : Fin 256) : String :=
  String.mk [Nat.digitChar (b.val / 16), Nat.digitChar (b.val % 16)]

/-- Lower-case hexadecimal text of a byte string, with the `0x` mark. -/
def hexString (bs : List (Fin 256)) : String :=
  "0x" ++ String.join (bs.map hexByte)

/-- A concrete choice of renderers: plain hexadecimal for addresses and hashes,
the nanosecond count for durations. -/
def plainLib : Lib :=
  { addressHex := fun a => hexString a.bytes
    hashHex := fun h => hexString h.bytes
    durationString := fun d => toString d ++ "ns" }

/-- The 32-byte big-endian hash of a number, as `common.BigToHash`. -/
def BigToHash (n : Nat) : Hash :=
  { bytes := (List.range 32).map (fun i => Fin.ofNat (n / 256 ^ (31 - i)))
    size := by simp }

/-- The 20-byte address whose bytes all equal `b`. -/
def constAddress (b : Fin 256) : Address :=
  { bytes := List.replicate 20 b, size := by simp }

/-- A configuration with a one hour delay and a thirty minute repeat interval. -/
def hourCfg : Config :=
  { orch := constAddress 171
    botToken := "token"
    chatID := "chat"
    delayFlag := Hour
    notifyIntervalFlag := 30 * Minute }

/-- The configuration `hourCfg` with the default repeat interval, zero. -/
def defaultIntervalCfg : Config :=
  { hourCfg with notifyIntervalFlag := 0 }

/-- A log at block `b` with the given topics. -/
def sampleLog (b : Nat) (topics : List Hash) : Log :=
  { BlockNumber := b, TxHash := BigToHash 48879, Topics := topics }

/-- A network on which every post succeeds. -/
def netOk : Net := fun _ => none

/-- A network on which every post fails. -/
def netDown : Net := fun _ => some "connection refused"

/-! ## Lemmas on big-endian values -/

/-- Reading on from an accumulator shifts it by the bytes read. -/
theorem foldl_bigEndian (bs : List (Fin 256)) (a : Nat) :
    bs.foldl (fun acc b => acc * 256 + b.val) a = a * 256 ^ bs.length + bigEndian bs := by
  induction bs generalizing a with
  | nil => simp [bigEndian]
  | cons b tl ih =>
    simp only [List.foldl_cons, List.length_cons, bigEndian]
    rw [ih (a * 256 + b.val), ih (0 * 256 + b.val)]
    ring

/-- The big-endian value of `n` bytes is below `256 ^ n`. -/
theorem bigEndian_lt (bs : List (Fin 256)) : bigEndian bs < 256 ^ bs.length := by
  induction bs with
  | nil => simp [bigEndian]
  | cons b tl ih =>
    have hb := b.isLt
    simp only [bigEndian, List.foldl_cons, List.length_cons]
    rw [foldl_bigEndian]
    have h1 : (0 * 256 + b.val) * 256 ^ tl.length ≤ 255 * 256 ^ tl.length :=
      Nat.mul_le_mul_right _ (by omega)
    have h2 : 256 ^ (tl.length + 1) = 255 * 256 ^ tl.length + 256 ^ tl.length := by ring
    omega

/-- The big-endian value of a concatenation. -/
theorem bigEndian_append (xs ys : List (Fin 256)) :
    bigEndian (xs ++ ys) = bigEndian xs * 256 ^ ys.length + bigEndian ys := by
  simp only [bigEndian, List.foldl_append]
  exact foldl_bigEndian ys _

/-- The low 64 bits of the value of a hash are the value of its last eight bytes. -/
theorem Uint64_Big (h : Hash) : Uint64 h.Big = bigEndian (h.bytes.drop 24) := by
  have hlen : (h.bytes.drop 24).length = 8 := by rw [List.length_drop, h.size]
  have hlt := bigEndian_lt (h.bytes.drop 24)
  rw [hlen] at hlt
  have hsplit : h.Big =
      bigEndian (h.bytes.take 24) * 256 ^ 8 + bigEndian (h.bytes.drop 24) := by
    rw [← hlen, ← bigEndian_append, List.take_append_drop]
    rfl
  have h256 : (256 : Nat) ^ 8 = 2 ^ 64 := by norm_num
  rw [h256] at hlt hsplit
  rw [Uint64, hsplit, Nat.mul_add_mod_of_lt hlt]

/-! ## Lemmas on the notifier and on a single iteration -/

/-- Whatever the network answers, `sendTelegramAlert` performs exactly one post,
of the request built from its arguments. -/
theorem sendTelegramAlert_effects (net : Net) (cfg : Config) (message : String) :
    (sendTelegramAlert net cfg.botToken cfg.chatID message).1 =
      [Effect.post (alertRequest cfg message)] := by
  simp only [sendTelegramAlert, alertRequest]
  split <;> rfl

/-- The value `sendTelegramAlert` returns is the answer of the network. -/
theorem sendTelegramAlert_result (net : Net) (cfg : Config) (message : String) :
    (sendTelegramAlert net cfg.botToken cfg.chatID message).2 =
      net (alertRequest cfg message) := by
  simp only [sendTelegramAlert, alertRequest]
  split <;> simp_all

/-- Within the range of `time.Duration` the elapsed time is the plain difference. -/
theorem Since_eq_sub (now t : Time) (hlo : minDuration ≤ now - t)
    (hhi : now - t ≤ maxDuration) : Since now t = now - t := by
  simp only [Since, minDuration, maxDuration] at *
  split_ifs <;> first | rfl | linarith

/-- An iteration does not depend on the answer of the network. -/
theorem step_net_irrelevant (lib : Lib) (cfg : Config) (net1 net2 : Net) (s : State)
    (inp : Input) : step lib cfg net1 s inp = step lib cfg net2 s inp := by
  cases inp <;> simp [step, sendTelegramAlert_effects]

/-- An iteration performs at most one post. -/
theorem step_posts_le_one (lib : Lib) (cfg : Config) (net : Net) (s : State)
    (inp : Input) : (posts (step lib cfg net s inp).effects).length ≤ 1 := by
  cases inp <;> simp only [step, sendTelegramAlert_effects]
  case tick now => split <;> [split; skip] <;> simp [posts]
  all_goals simp [posts]

/-- A tick leaves the variables unchanged, and has no effect once `rewardCalled`
is set. -/
theorem step_tick_quiet (lib : Lib) (cfg : Config) (net : Net) (s : State) (now : Time) :
    (step lib cfg net s (Input.tick now)).state = s ∧
    (s.rewardCalled = true → (step lib cfg net s (Input.tick now)).effects = []) := by
  cases hr : s.rewardCalled <;> cases hz : IsZero s.roundStart <;>
    by_cases h2 : cfg.delayFlag ≤ Since now s.roundStart <;>
    simp [step, hr, hz, h2]

/-- The iteration on a NewRound log. -/
theorem step_round (lib : Lib) (cfg : Config) (net : Net) (s : State) (vLog : Log)
    (now : Time) :
    step lib cfg net s (Input.round vLog now) =
      { state := { currentRound := roundNum vLog, roundStart := now, rewardCalled := false }
        effects := [Effect.log ("New round " ++ toString (roundNum vLog) ++ " started")]
        returned := false } := rfl

/-- The iteration on a tick before the delay has elapsed. -/
theorem step_tick_early (lib : Lib) (cfg : Config) (net : Net) (s : State) (now : Time)
    (h : ¬ cfg.delayFlag ≤ Since now s.roundStart) :
    step lib cfg net s (Input.tick now) = { state := s, effects := [], returned := false } := by
  cases hr : s.rewardCalled <;> cases hz : IsZero s.roundStart <;> simp [step, hr, hz, h]

/-- The iteration on a tick once the delay has elapsed in a round without reward. -/
theorem step_tick_due (lib : Lib) (cfg : Config) (net : Net) (s : State) (now : Time)
    (hr : s.rewardCalled = false) (hz : IsZero s.roundStart = false)
    (h : cfg.delayFlag ≤ Since now s.roundStart) :
    step lib cfg net s (Input.tick now) =
      { state := s
        effects := [Effect.log (delayMsg lib cfg s.currentRound),
          Effect.post (alertRequest cfg (delayMsg lib cfg s.currentRound))]
        returned := false } := by
  simp [step, sendTelegramAlert_effects, hr, hz, h]

/-! ## Properties of a single iteration -/

/-- C1: handling one tick posts an alert exactly when `rewardCalled` is false,
`roundStart` is not the zero instant and the time elapsed since `roundStart` has
reached the delay; when it posts, it posts exactly one alert, whose text names the
tracked address, `currentRound` and the delay; the tick leaves the variables
unchanged and the loop running. -/
theorem tick_alert_iff (lib : Lib) (cfg : Config) (net : Net) (s : State) (now : Time) :
    (posts (step lib cfg net s (Input.tick now)).effects ≠ [] ↔
      (s.rewardCalled = false ∧ IsZero s.roundStart = false ∧
        cfg.delayFlag ≤ Since now s.roundStart)) ∧
    (posts (step lib cfg net s (Input.tick now)).effects ≠ [] →
      posts (step lib cfg net s (Input.tick now)).effects =
        [alertRequest cfg ("❌ No reward called for " ++ lib.addressHex cfg.orch ++
          " in round " ++ toString s.currentRound ++ " after " ++
          lib.durationString cfg.delayFlag)]) ∧
    (step lib cfg net s (Input.tick now)).state = s ∧
    (step lib cfg net s (Input.tick now)).returned = false := by
  cases hr : s.rewardCalled <;> cases hz : IsZero s.roundStart <;>
    by_cases h2 : cfg.delayFlag ≤ Since now s.roundStart <;>
    simp [step, sendTelegramAlert_effects, delayMsg, posts, hr, hz, h2]

/-- Witness of C1 on a tick two hours into a round without reward. -/
theorem tick_alert_iff_witness :
    posts (step plainLib hourCfg netOk
      { currentRound := 7, roundStart := 1000, rewardCalled := false }
      (Input.tick (1000 + 2 * Hour))).effects ≠ [] ∧
    posts (step plainLib hourCfg netOk
      { currentRound := 7, roundStart := 1000, rewardCalled := false }
      (Input.tick (1000 + 2 * Hour))).effects =
      [alertRequest hourCfg ("❌ No reward called for " ++ plainLib.addressHex hourCfg.orch ++
        " in round " ++ toString 7 ++ " after " ++
        plainLib.durationString hourCfg.delayFlag)] :=
  ⟨by decide,
    (tick_alert_iff plainLib hourCfg netOk
      { currentRound := 7, roundStart := 1000, rewardCalled := false }
      (1000 + 2 * Hour)).2.1 (by decide)⟩

/-- C4: from every state, handling a Reward log sets `rewardCalled`, keeps
`currentRound` and `roundStart`, keeps the loop running and posts exactly one
alert, whose text names the tracked address, the block number and the
transaction hash of the log. -/
theorem reward_sets_flag (lib : Lib) (cfg : Config) (net : Net) (s : State) (vLog : Log) :
    (step lib cfg net s (Input.reward vLog)).state =
      { currentRound := s.currentRound, roundStart := s.roundStart, rewardCalled := true } ∧
    posts (step lib cfg net s (Input.reward vLog)).effects =
      [alertRequest cfg ("✅ Reward called for " ++ lib.addressHex cfg.orch ++ " at block " ++
        toString vLog.BlockNumber ++ ", tx " ++ lib.hashHex vLog.TxHash)] ∧
    (step lib cfg net s (Input.reward vLog)).returned = false := by
  simp [step, sendTelegramAlert_effects, rewardMsg, posts]

/-! ## Lemmas on the loop -/

/-- The loop unfolds by one iteration on an input that does not return. -/
theorem loop_cons_running (lib : Lib) (cfg : Config) (s : State) (inp : Input) (net : Net)
    (rest : List (Input × Net)) (h : (step lib cfg net s inp).returned = false) :
    loop lib cfg s ((inp, net) :: rest) =
      { state := (loop lib cfg (step lib cfg net s inp).state rest).state
        trace := (step lib cfg net s inp).effects ::
          (loop lib cfg (step lib cfg net s inp).state rest).trace
        returned := (loop lib cfg (step lib cfg net s inp).state rest).returned } := by
  simp [loop, h]

/-- Only the two subscription errors make an iteration return. -/
theorem step_returned (lib : Lib) (cfg : Config) (net : Net) (s : State) (inp : Input) :
    (step lib cfg net s inp).returned = inp.isErr := by
  cases inp <;> simp only [step, Input.isErr]
  case tick now => split <;> [split; skip] <;> rfl

/-- A tick never changes the variables. -/
theorem step_tick_state (lib : Lib) (cfg : Config) (net : Net) (s : State) (now : Time) :
    (step lib cfg net s (Input.tick now)).state = s :=
  (step_tick_quiet lib cfg net s now).1

/-- Once `rewardCalled` is set, ticks and Reward logs are all handled, the loop
keeps running, and every tick among them has no effect. -/
theorem loop_quiet (lib : Lib) (cfg : Config) :
    ∀ (rest : List (Input × Net)) (s : State), s.rewardCalled = true →
      (∀ p ∈ rest, p.1.isTick = true ∨ p.1.isReward = true) →
      (loop lib cfg s rest).trace.length = rest.length ∧
      (loop lib cfg s rest).returned = false ∧
      ∀ p ∈ List.zip rest (loop lib cfg s rest).trace, p.1.1.isTick = true → p.2 = [] := by
  intro rest
  induction rest with
  | nil => intro s _ _; exact ⟨rfl, rfl, fun p hp => absurd hp (List.not_mem_nil p)⟩
  | cons hd tl ih =>
    intro s hs hall
    obtain ⟨inp, net⟩ := hd
    have hhd : inp.isTick = true ∨ inp.isReward = true :=
      hall (inp, net) (List.mem_cons_self _ _)
    have htl : ∀ p ∈ tl, p.1.isTick = true ∨ p.1.isReward = true :=
      fun p hp => hall p (List.mem_cons_of_mem _ hp)
    have hrun : (step lib cfg net s inp).returned = false := by
      rw [step_returned]
      cases inp <;> first | rfl | exact absurd hhd (by simp only [Input.isTick, Input.isReward, Bool.false_eq_true, or_self, not_false_eq_true])
    have hflag : (step lib cfg net s inp).state.rewardCalled = true := by
      cases inp with
      | tick now => rw [step_tick_state]; exact hs
      | reward vLog => rfl
      | round vLog now => exact absurd hhd (by simp only [Input.isTick, Input.isReward, Bool.false_eq_true, or_self, not_false_eq_true])
      | rewardErr err => exact absurd hhd (by simp only [Input.isTick, Input.isReward, Bool.false_eq_true, or_self, not_false_eq_true])
      | roundErr err => exact absurd hhd (by simp only [Input.isTick, Input.isReward, Bool.false_eq_true, or_self, not_false_eq_true])
    have hfx : inp.isTick = true → (step lib cfg net s inp).effects = [] := by
      cases inp with
      | tick now => exact fun _ => (step_tick_quiet lib cfg net s now).2 hs
      | reward vLog => exact fun h => absurd h (by simp only [Input.isTick, Bool.false_eq_true, not_false_eq_true])
      | round vLog now => exact fun h => absurd h (by simp only [Input.isTick, Bool.false_eq_true, not_false_eq_true])
      | rewardErr err => exact fun h => absurd h (by simp only [Input.isTick, Bool.false_eq_true, not_false_eq_true])
      | roundErr err => exact fun h => absurd h (by simp only [Input.isTick, Bool.false_eq_true, not_false_eq_true])
    obtain ⟨h1, h2, h3⟩ := ih (step lib cfg net s inp).state hflag htl
    have htrace := congrArg Run.trace (loop_cons_running lib cfg s inp net tl hrun)
    have hret := congrArg Run.returned (loop_cons_running lib cfg s inp net tl hrun)
    rw [htrace, hret]
    refine ⟨?_, h2, ?_⟩
    · rw [List.length_cons, List.length_cons, h1]
    · intro p hp htick
      rw [List.zip_cons_cons] at hp
      rcases List.mem_cons.mp hp with hp | hp
      · rw [hp] at htick ⊢
        exact hfx htick
      · exact h3 p hp htick

/-- The final value of `rewardCalled` after inputs without subscription errors:
it is set when it was set at the start and no NewRound log came, or when some
Reward log came with no NewRound log after it. -/
theorem loop_rewardCalled (lib : Lib) (cfg : Config) :
    ∀ (ins : List (Input × Net)) (s : State), (∀ p ∈ ins, p.1.isErr = false) →
      ((loop lib cfg s ins).state.rewardCalled = true ↔
        (s.rewardCalled = true ∧ ∀ p ∈ ins, p.1.isRound = false) ∨
        ∃ pre vLog net post, ins = pre ++ (Input.reward vLog, net) :: post ∧
          ∀ p ∈ post, p.1.isRound = false) := by
  intro ins
  induction ins with
  | nil => intro s _; simp only [loop, List.not_mem_nil, false_implies, implies_true, and_true,
      List.nil_eq, List.append_eq_nil, reduceCtorEq, and_false, false_and, exists_false, or_false]
  | cons hd tl ih =>
    intro s hall
    obtain ⟨inp, net⟩ := hd
    have hhd := hall (inp, net) (List.mem_cons_self _ _)
    have htl : ∀ p ∈ tl, p.1.isErr = false :=
      fun p hp => hall p (List.mem_cons_of_mem _ hp)
    have hrun : (step lib cfg net s inp).returned = false := by
      rw [step_returned]; exact hhd
    have hstate := congrArg Run.state (loop_cons_running lib cfg s inp net tl hrun)
    simp only [] at hstate
    rw [hstate, ih (step lib cfg net s inp).state htl]
    cases inp with
    | rewardErr err => simp [Input.isErr] at hhd
    | roundErr err => simp [Input.isErr] at hhd
    | tick now =>
      rw [step_tick_state]
      constructor
      · rintro (⟨h1, h2⟩ | ⟨pre, vLog, n, post, h1, h2⟩)
        · left
          refine ⟨h1, ?_⟩
          intro p hp
          rcases List.mem_cons.mp hp with hp | hp
          · subst hp; rfl
          · exact h2 p hp
        · right
          exact ⟨(Input.tick now, net) :: pre, vLog, n, post, by simp [h1], h2⟩
      · rintro (⟨h1, h2⟩ | ⟨pre, vLog, n, post, h1, h2⟩)
        · left
          exact ⟨h1, fun p hp => h2 p (List.mem_cons_of_mem _ hp)⟩
        · right
          cases pre with
          | nil => simp at h1
          | cons x pre =>
            simp only [List.cons_append, List.cons.injEq] at h1
            exact ⟨pre, vLog, n, post, h1.2, h2⟩
    | reward vLog =>
      constructor
      · rintro (⟨_, h2⟩ | ⟨pre, vLog1, n, post, h1, h2⟩)
        · right
          exact ⟨[], vLog, net, tl, by simp, h2⟩
        · right
          exact ⟨(Input.reward vLog, net) :: pre, vLog1, n, post, by simp [h1], h2⟩
      · rintro (⟨_, h2⟩ | ⟨pre, vLog1, n, post, h1, h2⟩)
        · left
          exact ⟨by simp [step], fun p hp => h2 p (List.mem_cons_of_mem _ hp)⟩
        · cases pre with
          | nil =>
            simp only [List.nil_append, List.cons.injEq] at h1
            left
            refine ⟨by simp [step], ?_⟩
            rw [h1.2]; exact h2
          | cons x pre =>
            simp only [List.cons_append, List.cons.injEq] at h1
            right
            exact ⟨pre, vLog1, n, post, h1.2, h2⟩
    | round vLog now =>
      constructor
      · rintro (⟨h1, _⟩ | ⟨pre, vLog1, n, post, h1, h2⟩)
        · simp [step] at h1
        · right
          exact ⟨(Input.round vLog now, net) :: pre, vLog1, n, post, by simp [h1], h2⟩
      · rintro (⟨_, h2⟩ | ⟨pre, vLog1, n, post, h1, h2⟩)
        · have := h2 (Input.round vLog now, net) (List.mem_cons_self _ _)
          simp [Input.isRound] at this
        · cases pre with
          | nil => simp at h1
          | cons x pre =>
            simp only [List.cons_append, List.cons.injEq] at h1
            right
            exact ⟨pre, vLog1, n, post, h1.2, h2⟩

/-- Without a NewRound log and without subscription errors, `roundStart` keeps its
value. -/
theorem loop_roundStart (lib : Lib) (cfg : Config) :
    ∀ (ins : List (Input × Net)) (s : State),
      (∀ p ∈ ins, p.1.isErr = false ∧ p.1.isRound = false) →
      (loop lib cfg s ins).state.roundStart = s.roundStart := by
  intro ins
  induction ins with
  | nil => intro s _; simp [loop]
  | cons hd tl ih =>
    intro s hall
    obtain ⟨inp, net⟩ := hd
    have hhd := hall (inp, net) (List.mem_cons_self _ _)
    have hrun : (step lib cfg net s inp).returned = false := by
      rw [step_returned]; exact hhd.1
    have hstate := congrArg Run.state (loop_cons_running lib cfg s inp net tl hrun)
    simp only [] at hstate
    rw [hstate, ih _ (fun p hp => hall p (List.mem_cons_of_mem _ hp))]
    cases inp with
    | rewardErr err => simp [Input.isErr] at hhd
    | roundErr err => simp [Input.isErr] at hhd
    | tick now => rw [step_tick_state]
    | reward vLog => simp [step]
    | round vLog now => simp [Input.isRound] at hhd

/-- Within the range of `time.Duration`, the time elapsed at `t + d` since `t`
is `d`. -/
theorem Since_add (t : Time) (d : Duration) (hlo : minDuration ≤ d) (hhi : d ≤ maxDuration) :
    Since (t + d) t = d := by
  have h : t + d - t = d := by ring
  rw [Since_eq_sub (t + d) t (by rw [h]; exact hlo) (by rw [h]; exact hhi), h]

/-! ## Properties of the loop -/

/-- C9: from every state, an error of the Reward subscription or of the NewRound
subscription is logged, reported in exactly one alert, and makes the loop return:
the trace ends with that single iteration, so no later arrival is handled and no
further alert is sent, and the variables stay as they were. -/
theorem subscription_error_stops (lib : Lib) (cfg : Config) (s : State) (err : String)
    (net : Net) (rest : List (Input × Net)) :
    loop lib cfg s ((Input.rewardErr err, net) :: rest) =
      { state := s
        trace := [[Effect.log ("Reward subscription error: " ++ err),
          Effect.post (alertRequest cfg ("⚠️ Reward subscription error: " ++ err))]]
        returned := true } ∧
    loop lib cfg s ((Input.roundErr err, net) :: rest) =
      { state := s
        trace := [[Effect.log ("NewRound subscription error: " ++ err),
          Effect.post (alertRequest cfg ("⚠️ NewRound subscription error: " ++ err))]]
        returned := true } := by
  constructor <;> simp [loop, step, sendTelegramAlert_effects]

/-- C10, as the code has it: the value returned by the notifier is discarded.
Whatever the network answers, an iteration has the same effects (the same log
lines, nothing logged for a failure), the same resulting variables and the same
continuation as when every post succeeds, an iteration posts at most once, and
so does the whole loop behave on every sequence of arrivals. -/
theorem send_failure_ignored (lib : Lib) (cfg : Config) (net : Net) (s : State)
    (inp : Input) (ins : List (Input × Net)) :
    step lib cfg net s inp = step lib cfg netOk s inp ∧
    (posts (step lib cfg net s inp).effects).length ≤ 1 ∧
    loop lib cfg s ins = loop lib cfg s (ins.map (fun p => (p.1, netOk))) := by
  refine ⟨step_net_irrelevant lib cfg net netOk s inp, step_posts_le_one lib cfg net s inp, ?_⟩
  induction ins generalizing s with
  | nil => rfl
  | cons hd tl ih =>
    obtain ⟨i, n⟩ := hd
    simp only [List.map_cons, loop]
    rw [step_net_irrelevant lib cfg n netOk s i, ih]

/-- C10 fails as stated: on a network where the post fails, `sendTelegramAlert`
returns the failure, yet handling a Reward log writes only the alert line to the
log, the same log as on a network where the post succeeds. -/
theorem send_failure_not_logged :
    (sendTelegramAlert netDown hourCfg.botToken hourCfg.chatID
      (rewardMsg plainLib hourCfg (sampleLog 7 []))).2 = some "connection refused" ∧
    logs (step plainLib hourCfg netDown State.init (Input.reward (sampleLog 7 []))).effects =
      ["✅ Reward called for 0xabababababababababababababababababababab at block 7, tx " ++
        "0x000000000000000000000000000000000000000000000000000000000000beef"] ∧
    logs (step plainLib hourCfg netDown State.init (Input.reward (sampleLog 7 []))).effects =
      logs (step plainLib hourCfg netOk State.init (Input.reward (sampleLog 7 []))).effects := by
  refine ⟨rfl, ?_, rfl⟩
  decide

/-- C5: after a NewRound log followed by a Reward log, every following sequence of
ticks and Reward logs is handled in full (one trace entry per arrival), and each
tick in it has no effect at all, so it sends no delay alert, whatever the delay,
the clock readings and the state before. -/
theorem no_delay_alert_after_reward (lib : Lib) (cfg : Config) (s : State)
    (vRound : Log) (t0 : Time) (net0 : Net) (vReward : Log) (net1 : Net)
    (rest : List (Input × Net))
    (hrest : ∀ p ∈ rest, p.1.isTick = true ∨ p.1.isReward = true) :
    (loop lib cfg s
      ((Input.round vRound t0, net0) :: (Input.reward vReward, net1) :: rest)).trace.length =
      rest.length + 2 ∧
    ∀ p ∈ List.zip rest ((loop lib cfg s
        ((Input.round vRound t0, net0) :: (Input.reward vReward, net1) :: rest)).trace.drop 2),
      p.1.1.isTick = true → p.2 = [] := by
  have h0 : (step lib cfg net0 s (Input.round vRound t0)).returned = false := rfl
  have h1 : (step lib cfg net1 (step lib cfg net0 s (Input.round vRound t0)).state
      (Input.reward vReward)).returned = false := rfl
  have hq := loop_quiet lib cfg rest
    (step lib cfg net1 (step lib cfg net0 s (Input.round vRound t0)).state
      (Input.reward vReward)).state rfl hrest
  have htrace := congrArg Run.trace (loop_cons_running lib cfg s _ net0
    ((Input.reward vReward, net1) :: rest) h0)
  have htrace1 := congrArg Run.trace (loop_cons_running lib cfg
    (step lib cfg net0 s (Input.round vRound t0)).state _ net1 rest h1)
  rw [htrace, htrace1]
  refine ⟨?_, ?_⟩
  · rw [List.length_cons, List.length_cons, hq.1]
  · intro p hp
    exact hq.2.2 p hp

/-- Witness of C5 on a round, a reward, then two ticks around a further reward. -/
theorem no_delay_alert_after_reward_witness :
    (loop plainLib hourCfg State.init
      ((Input.round (sampleLog 1 []) 1000, netOk) :: (Input.reward (sampleLog 2 []), netOk) ::
        [(Input.tick (1000 + 3 * Hour), netOk), (Input.reward (sampleLog 3 []), netDown),
          (Input.tick (1000 + 9 * Hour), netDown)])).trace.length = 3 + 2 ∧
    ∀ p ∈ List.zip [(Input.tick (1000 + 3 * Hour), netOk),
        (Input.reward (sampleLog 3 []), netDown), (Input.tick (1000 + 9 * Hour), netDown)]
        ((loop plainLib hourCfg State.init
          ((Input.round (sampleLog 1 []) 1000, netOk) ::
            (Input.reward (sampleLog 2 []), netOk) ::
            [(Input.tick (1000 + 3 * Hour), netOk), (Input.reward (sampleLog 3 []), netDown),
              (Input.tick (1000 + 9 * Hour), netDown)])).trace.drop 2),
      p.1.1.isTick = true → p.2 = [] :=
  no_delay_alert_after_reward plainLib hourCfg State.init (sampleLog 1 []) 1000 netOk
    (sampleLog 2 []) netOk _ (by
      intro p hp
      simp only [List.mem_cons, List.mem_singleton, List.not_mem_nil, or_false] at hp
      rcases hp with hp | hp | hp <;> rw [hp] <;> simp [Input.isTick, Input.isReward])

/-- C2, as the code has it: with a delay of one hour and a tick interval of thirty
minutes the ticker is created and the loop is entered; and when a NewRound log is
handled at a non-zero instant `t0` and then only the ticks at `t0 + 30m`,
`t0 + 60m`, `t0 + 90m` and `t0 + 120m` arrive, the first tick sends nothing and
each of the other three sends exactly one delay alert, for the round of that log. -/
theorem delay_schedule (lib : Lib) (cfg : Config) (s : State) (vLog : Log) (t0 : Time)
    (n0 n1 n2 n3 n4 : Net) (ins : List (Input × Net))
    (hd : cfg.delayFlag = Hour) (hi : cfg.notifyIntervalFlag = 30 * Minute)
    (ht : IsZero t0 = false) :
    main lib cfg ins =
      MainResult.ran [Effect.log "Monitoring started..."] (loop lib cfg State.init ins) ∧
    (loop lib cfg s [(Input.round vLog t0, n0), (Input.tick (t0 + 30 * Minute), n1),
      (Input.tick (t0 + 60 * Minute), n2), (Input.tick (t0 + 90 * Minute), n3),
      (Input.tick (t0 + 120 * Minute), n4)]).trace.map posts =
      [[], [],
        [alertRequest cfg ("❌ No reward called for " ++ lib.addressHex cfg.orch ++
          " in round " ++ toString (roundNum vLog) ++ " after " ++
          lib.durationString cfg.delayFlag)],
        [alertRequest cfg ("❌ No reward called for " ++ lib.addressHex cfg.orch ++
          " in round " ++ toString (roundNum vLog) ++ " after " ++
          lib.durationString cfg.delayFlag)],
        [alertRequest cfg ("❌ No reward called for " ++ lib.addressHex cfg.orch ++
          " in round " ++ toString (roundNum vLog) ++ " after " ++
          lib.durationString cfg.delayFlag)]] := by
  constructor
  · simp [main, NewTicker, hi, Minute]
  · have e30 : Since (t0 + 30 * Minute) t0 = 30 * Minute :=
      Since_add t0 _ (by norm_num [Minute, minDuration]) (by norm_num [Minute, maxDuration])
    have e60 : Since (t0 + 60 * Minute) t0 = 60 * Minute :=
      Since_add t0 _ (by norm_num [Minute, minDuration]) (by norm_num [Minute, maxDuration])
    have e90 : Since (t0 + 90 * Minute) t0 = 90 * Minute :=
      Since_add t0 _ (by norm_num [Minute, minDuration]) (by norm_num [Minute, maxDuration])
    have e120 : Since (t0 + 120 * Minute) t0 = 120 * Minute :=
      Since_add t0 _ (by norm_num [Minute, minDuration]) (by norm_num [Minute, maxDuration])
    have t30 := step_tick_early lib cfg n1
      { currentRound := roundNum vLog, roundStart := t0, rewardCalled := false }
      (t0 + 30 * Minute) (by rw [e30, hd]; norm_num [Hour, Minute])
    have t60 := step_tick_due lib cfg n2
      { currentRound := roundNum vLog, roundStart := t0, rewardCalled := false }
      (t0 + 60 * Minute) rfl ht (by rw [e60, hd]; norm_num [Hour, Minute])
    have t90 := step_tick_due lib cfg n3
      { currentRound := roundNum vLog, roundStart := t0, rewardCalled := false }
      (t0 + 90 * Minute) rfl ht (by rw [e90, hd]; norm_num [Hour, Minute])
    have t120 := step_tick_due lib cfg n4
      { currentRound := roundNum vLog, roundStart := t0, rewardCalled := false }
      (t0 + 120 * Minute) rfl ht (by rw [e120, hd]; norm_num [Hour, Minute])
    simp only [loop, step_round, t30, t60, t90, t120, Bool.false_eq_true, if_false, List.map,
      posts, delayMsg]

/-- Witness of the schedule of C2 at the instant `1000`, from the initial state. -/
theorem delay_schedule_witness :
    hourCfg.delayFlag = Hour ∧ hourCfg.notifyIntervalFlag = 30 * Minute ∧
    IsZero 1000 = false ∧
    (loop plainLib hourCfg State.init [(Input.round (sampleLog 1 []) 1000, netOk),
      (Input.tick (1000 + 30 * Minute), netOk), (Input.tick (1000 + 60 * Minute), netOk),
      (Input.tick (1000 + 90 * Minute), netOk),
      (Input.tick (1000 + 120 * Minute), netOk)]).trace.map posts =
      [[], [],
        [alertRequest hourCfg ("❌ No reward called for " ++
          plainLib.addressHex hourCfg.orch ++
          " in round " ++ toString (roundNum (sampleLog 1 [])) ++ " after " ++
          plainLib.durationString hourCfg.delayFlag)],
        [alertRequest hourCfg ("❌ No reward called for " ++
          plainLib.addressHex hourCfg.orch ++
          " in round " ++ toString (roundNum (sampleLog 1 [])) ++ " after " ++
          plainLib.durationString hourCfg.delayFlag)],
        [alertRequest hourCfg ("❌ No reward called for " ++
          plainLib.addressHex hourCfg.orch ++
          " in round " ++ toString (roundNum (sampleLog 1 [])) ++ " after " ++
          plainLib.durationString hourCfg.delayFlag)]] :=
  ⟨rfl, rfl, by decide,
    (delay_schedule plainLib hourCfg State.init (sampleLog 1 []) 1000 netOk netOk netOk netOk
      netOk [] rfl rfl (by decide)).2⟩

/-- C2 fails as stated: with a delay of one hour and a tick interval of thirty
minutes, after a NewRound log handled at the instant `1000` and no Reward log, the
tick at sixty minutes after it already sends a delay alert. -/
theorem delay_alert_at_sixty_minutes :
    main plainLib hourCfg [(Input.round (sampleLog 1 []) 1000, netOk),
      (Input.tick (1000 + 30 * Minute), netOk), (Input.tick (1000 + 60 * Minute), netOk)] =
      MainResult.ran [Effect.log "Monitoring started..."]
        { state := { currentRound := 0, roundStart := 1000, rewardCalled := false }
          trace := [[Effect.log "New round 0 started"], [],
            [Effect.log ("❌ No reward called for 0xabababababababababababababababababababab" ++
                " in round 0 after 3600000000000ns"),
              Effect.post
                { url := "https://api.telegram.org/bottoken/sendMessage"
                  chat_id := "chat"
                  text := "❌ No reward called for 0xabababababababababababababababababababab" ++
                    " in round 0 after 3600000000000ns" }]]
          returned := false } := by
  decide

/-- C3 fails on the code: with the repeat interval zero, the default of the flag,
`time.NewTicker` panics after the start message is logged and before the loop is
entered, so no arrival is handled. -/
theorem zero_interval_panics (lib : Lib) (cfg : Config) (ins : List (Input × Net))
    (h : cfg.notifyIntervalFlag = 0) :
    main lib cfg ins =
      MainResult.panicked [Effect.log "Monitoring started..."]
        "non-positive interval for NewTicker" := by
  simp [main, NewTicker, h]

/-- Witness of the panic under the default interval, with a Reward log waiting. -/
theorem zero_interval_panics_witness :
    defaultIntervalCfg.notifyIntervalFlag = 0 ∧
    main plainLib defaultIntervalCfg [(Input.reward (sampleLog 7 []), netOk)] =
      MainResult.panicked [Effect.log "Monitoring started..."]
        "non-positive interval for NewTicker" :=
  ⟨rfl, zero_interval_panics plainLib defaultIntervalCfg _ rfl⟩

/-- C7, as the code has it: after any sequence of NewRound logs, Reward logs and
ticks from the initial state, `rewardCalled` is set exactly when some Reward log
has arrived with no NewRound log after it, and `roundStart` is still the zero
instant when no NewRound log has arrived. -/
theorem rewardCalled_iff (lib : Lib) (cfg : Config) (ins : List (Input × Net))
    (hins : ∀ p ∈ ins, p.1.isErr = false) :
    ((loop lib cfg State.init ins).state.rewardCalled = true ↔
      ∃ pre vLog net post, ins = pre ++ (Input.reward vLog, net) :: post ∧
        ∀ p ∈ post, p.1.isRound = false) ∧
    ((∀ p ∈ ins, p.1.isRound = false) →
      IsZero (loop lib cfg State.init ins).state.roundStart = true) := by
  constructor
  · rw [loop_rewardCalled lib cfg ins State.init hins]
    constructor
    · rintro (⟨h, _⟩ | h)
      · exact absurd h (by decide)
      · exact h
    · exact Or.inr
  · intro h
    rw [loop_roundStart lib cfg ins State.init (fun p hp => ⟨hins p hp, h p hp⟩)]
    rfl

/-- Witness of C7 on a round followed by a reward and a tick. -/
theorem rewardCalled_iff_witness :
    (∀ p ∈ [(Input.round (sampleLog 1 []) 1000, netOk), (Input.reward (sampleLog 2 []), netOk),
        (Input.tick 2000, netOk)], p.1.isErr = false) ∧
    ((loop plainLib hourCfg State.init [(Input.round (sampleLog 1 []) 1000, netOk),
        (Input.reward (sampleLog 2 []), netOk), (Input.tick 2000, netOk)]).state.rewardCalled =
        true ↔
      ∃ pre vLog net post, [(Input.round (sampleLog 1 []) 1000, netOk),
          (Input.reward (sampleLog 2 []), netOk), (Input.tick 2000, netOk)] =
          pre ++ (Input.reward vLog, net) :: post ∧
        ∀ p ∈ post, p.1.isRound = false) :=
  have h : ∀ p ∈ [(Input.round (sampleLog 1 []) 1000, netOk),
      (Input.reward (sampleLog 2 []), netOk), (Input.tick 2000, netOk)],
      p.1.isErr = false := by
    intro p hp
    simp only [List.mem_cons, List.mem_singleton, List.not_mem_nil, or_false] at hp
    rcases hp with hp | hp | hp <;> rw [hp] <;> rfl
  ⟨h, (rewardCalled_iff plainLib hourCfg _ h).1⟩

/-- C7 fails as stated: a Reward log handled in the initial state sets
`rewardCalled` while `roundStart` is still the zero instant. -/
theorem rewardCalled_before_first_round :
    (loop plainLib hourCfg State.init
      [(Input.reward (sampleLog 7 []), netOk)]).state.rewardCalled = true ∧
    IsZero (loop plainLib hourCfg State.init
      [(Input.reward (sampleLog 7 []), netOk)]).state.roundStart = true := by
  decide

/-! ## Round number of a NewRound log -/

/-- C6, as the code has it: after a NewRound log is handled, `currentRound` is,
when the log has at least two topics, the big-endian value of `Topics[1]` reduced
modulo `2 ^ 64`, which is the big-endian value of its last eight bytes and is the
whole value when that is below `2 ^ 64`; and it is `0` when the log has fewer
than two topics. -/
theorem newRound_currentRound (lib : Lib) (cfg : Config) (net : Net) (s : State)
    (vLog : Log) (now : Time) :
    (∀ h : 1 < vLog.Topics.length,
      (step lib cfg net s (Input.round vLog now)).state.currentRound =
        (vLog.Topics.get ⟨1, h⟩).Big % 2 ^ 64 ∧
      (step lib cfg net s (Input.round vLog now)).state.currentRound =
        bigEndian ((vLog.Topics.get ⟨1, h⟩).bytes.drop 24) ∧
      ((vLog.Topics.get ⟨1, h⟩).Big < 2 ^ 64 →
        (step lib cfg net s (Input.round vLog now)).state.currentRound =
          (vLog.Topics.get ⟨1, h⟩).Big)) ∧
    (vLog.Topics.length < 2 →
      (step lib cfg net s (Input.round vLog now)).state.currentRound = 0) := by
  rw [step_round]
  simp only [roundNum]
  constructor
  · intro h
    rw [dif_pos h]
    refine ⟨rfl, Uint64_Big _, fun hlt => ?_⟩
    exact Nat.mod_eq_of_lt hlt
  · intro h
    rw [dif_neg (by omega)]

/-- Witness of C6 on a log whose second topic is `42`, and on a log with one topic. -/
theorem newRound_currentRound_witness :
    (1 < (sampleLog 1 [BigToHash 0, BigToHash 42]).Topics.length ∧
      (BigToHash 42).Big < 2 ^ 64 ∧
      (step plainLib hourCfg netOk State.init
        (Input.round (sampleLog 1 [BigToHash 0, BigToHash 42]) 1000)).state.currentRound =
        (BigToHash 42).Big) ∧
    ((sampleLog 1 [BigToHash 0]).Topics.length < 2 ∧
      (step plainLib hourCfg netOk State.init
        (Input.round (sampleLog 1 [BigToHash 0]) 1000)).state.currentRound = 0) :=
  ⟨⟨by decide, by decide,
      ((newRound_currentRound plainLib hourCfg netOk State.init
        (sampleLog 1 [BigToHash 0, BigToHash 42]) 1000).1 (by decide)).2.2 (by decide)⟩,
    ⟨by decide,
      (newRound_currentRound plainLib hourCfg netOk State.init
        (sampleLog 1 [BigToHash 0]) 1000).2 (by decide)⟩⟩

/-- C6 fails as stated: for a NewRound log whose second topic has the big-endian
value `2 ^ 64 + 5`, `currentRound` becomes `5`. -/
theorem currentRound_truncated :
    (sampleLog 1 [BigToHash 0, BigToHash (2 ^ 64 + 5)]).Topics.length = 2 ∧
    (BigToHash (2 ^ 64 + 5)).Big = 2 ^ 64 + 5 ∧
    (step plainLib hourCfg netOk State.init
      (Input.round (sampleLog 1 [BigToHash 0, BigToHash (2 ^ 64 + 5)]) 1000)).state.currentRound
      = 5 := by
  decide

/-! ## Endpoint selection -/

/-- While no candidate is live, `connect` passes over the candidates: its results
are those on the remaining candidates, after one dial for each candidate passed
and one close for each that opened. -/
theorem connect_skip (pre rest : List (String × Endpoint))
    (hpre : ∀ p ∈ pre, p.2.isLive = false) :
    (connect (pre ++ rest)).client = (connect rest).client ∧
    (connect (pre ++ rest)).url = (connect rest).url ∧
    (connect (pre ++ rest)).err = (connect rest).err ∧
    dialed (connect (pre ++ rest)).actions =
      pre.map Prod.fst ++ dialed (connect rest).actions ∧
    closed (connect (pre ++ rest)).actions =
      pre.filterMap (fun p => p.2.deadClient) ++ closed (connect rest).actions := by
  induction pre with
  | nil => simp
  | cons hd tl ih =>
    have ih := ih (fun p hp => hpre p (List.mem_cons_of_mem _ hp))
    have hhd := hpre hd (List.mem_cons_self _ _)
    obtain ⟨url, ep⟩ := hd
    cases ep with
    | unreachable =>
      simp only [List.cons_append, connect, dialed, closed, List.map_cons, List.filterMap_cons,
        Endpoint.deadClient]
      exact ⟨ih.1, ih.2.1, ih.2.2.1, congrArg (List.cons url) ih.2.2.2.1, ih.2.2.2.2⟩
    | dead c =>
      simp only [List.cons_append, connect, dialed, closed, List.map_cons, List.filterMap_cons,
        Endpoint.deadClient]
      exact ⟨ih.1, ih.2.1, ih.2.2.1, congrArg (List.cons url) ih.2.2.2.1,
        congrArg (List.cons c) ih.2.2.2.2⟩
    | live c => exact absurd hhd (by simp [Endpoint.isLive])

/-- C8: `connect` is a left-to-right first-success search.  When a live candidate
is preceded only by candidates that are not live, `connect` returns its client and
URL with no error, having dialled exactly the candidates up to and including it
and having closed exactly the clients that opened and failed their probe; when no
candidate is live, the empty list included, it returns the error with no client
and the empty URL, having dialled them all and closed every client that opened. -/
theorem connect_first_success (pre post cands : List (String × Endpoint)) (url : String)
    (c : Client) :
    ((∀ p ∈ pre, p.2.isLive = false) →
      (connect (pre ++ (url, Endpoint.live c) :: post)).client = some c ∧
      (connect (pre ++ (url, Endpoint.live c) :: post)).url = url ∧
      (connect (pre ++ (url, Endpoint.live c) :: post)).err = none ∧
      dialed (connect (pre ++ (url, Endpoint.live c) :: post)).actions =
        pre.map Prod.fst ++ [url] ∧
      closed (connect (pre ++ (url, Endpoint.live c) :: post)).actions =
        pre.filterMap (fun p => p.2.deadClient)) ∧
    ((∀ p ∈ cands, p.2.isLive = false) →
      (connect cands).client = none ∧
      (connect cands).url = "" ∧
      (connect cands).err = some "all RPCs failed" ∧
      dialed (connect cands).actions = cands.map Prod.fst ∧
      closed (connect cands).actions = cands.filterMap (fun p => p.2.deadClient)) := by
  constructor
  · intro hpre
    have h := connect_skip pre ((url, Endpoint.live c) :: post) hpre
    simp only [connect, dialed, closed, List.append_nil] at h
    exact h
  · intro hall
    have h := connect_skip cands [] hall
    simp only [connect, dialed, closed, List.append_nil] at h
    exact h

/-- Witness of C8 on the candidates `bad-url`, `good-url-1`, `good-url-2`, and on two
candidates that both fail. -/
theorem connect_first_success_witness :
    ((∀ p ∈ [("bad-url", Endpoint.unreachable)], p.2.isLive = false) ∧
      (connect ([("bad-url", Endpoint.unreachable)] ++
        ("good-url-1", Endpoint.live { id := 1 }) ::
          [("good-url-2", Endpoint.live { id := 2 })])).url = "good-url-1" ∧
      dialed (connect ([("bad-url", Endpoint.unreachable)] ++
        ("good-url-1", Endpoint.live { id := 1 }) ::
          [("good-url-2", Endpoint.live { id := 2 })])).actions =
        [("bad-url", Endpoint.unreachable)].map Prod.fst ++ ["good-url-1"]) ∧
    ((∀ p ∈ [("bad-url", Endpoint.unreachable), ("stale-url", Endpoint.dead { id := 3 })],
        p.2.isLive = false) ∧
      (connect [("bad-url", Endpoint.unreachable),
        ("stale-url", Endpoint.dead { id := 3 })]).err = some "all RPCs failed") :=
  ⟨⟨by decide,
      ((connect_first_success [("bad-url", Endpoint.unreachable)]
        [("good-url-2", Endpoint.live { id := 2 })] [] "good-url-1" { id := 1 }).1
        (by decide)).2.1,
      ((connect_first_success [("bad-url", Endpoint.unreachable)]
        [("good-url-2", Endpoint.live { id := 2 })] [] "good-url-1" { id := 1 }).1
        (by decide)).2.2.2.1⟩,
    ⟨by decide,
      ((connect_first_success [] []
        [("bad-url", Endpoint.unreachable), ("stale-url", Endpoint.dead { id := 3 })]
        "" { id := 0 }).2 (by decide)).2.2.1⟩⟩

end RewardWatchdog
